import Mathlib

/-!
Shallow embedding of davecranwell/svg-to-geojson (source/index.js) and proofs
about its curve flattening, dimension resolution, projection and feature
assembly.  Numbers are modelled as rationals; the browser geometry engine
(getTotalLength / getPointAtLength on the temporary path element) is an
explicit oracle parameter `Geom`, since its implementation lives in the host
rendering engine, not in this repository.
-/

namespace SvgToGeoJson

/-- A normalized path segment as produced by `getPathData({normalize: true})`:
a `type` string (one of "M", "L", "C", "Z") and a `values` array. -/
structure Seg where
  type : String
  values : List ℚ
deriving DecidableEq

/-- JS `arr.slice(-2)`: the last two elements (fewer when the array is shorter). -/
def sliceLast2 (l : List ℚ) : List ℚ := l.drop (l.length - 2)

/-- Oracle for the host geometry engine: `totalLength anchor vals` models
`tmpPath.getTotalLength()` for the path `M anchor C vals`, and
`pointAt anchor vals d` models `tmpPath.getPointAtLength(d)`. -/
structure Geom where
  totalLength : List ℚ → List ℚ → ℚ
  pointAt : List ℚ → List ℚ → ℚ → ℚ × ℚ

/-- Value of the JS expression `Math.ceil(tmpPathLength / complexity)`:
finite for a nonzero divisor, `Infinity`/`NaN` when dividing by zero. -/
inductive StepVal
  | fin (n : ℤ)
  | posInf
  | negInf
  | nan
deriving DecidableEq

/-- Integer form of `Math.ceil(L / c)` for a nonzero divisor, via the
identity `⌈x⌉ = -⌊-x⌋` and integer floor division (`Int.fdiv`); stated this
way so that it evaluates inside the kernel.  The lemma `ceilDivJS_eq_ceil`
below proves it equal to the rational ceiling `⌈L / c⌉` for a positive
divisor. -/
def ceilDivJS (L c : ℤ) : ℤ := -((-L).fdiv c)

/-- Value of `Math.ceil(tmpPathLength / complexity)` in JS semantics:
division by zero yields an infinity (or `NaN` for `0/0`), and `Math.ceil`
preserves those. -/
def lengthStepJS (L c : ℤ) : StepVal :=
  if c = 0 then
    if L = 0 then .nan else if 0 < L then .posInf else .negInf
  else .fin (ceilDivJS L c)

/-- JS truthiness of the step value (`!lengthStep`): `0` and `NaN` are falsy. -/
def stepTruthy : StepVal → Bool
  | .fin n => n != 0
  | .nan => false
  | _ => true

/-- Arc-length distances visited by the sampling loop
`for (d = lengthStep; d <= tmpPathLength; d += lengthStep)` for a positive
finite step `s`: the multiples `s, 2*s, ...` that do not exceed `L`. -/
def loopDists (L s : ℤ) : List ℤ :=
  (List.range (L / s).toNat).map fun k : ℕ => s * ((k : ℤ) + 1)

/-- Outcome of processing one `C` segment: `skip` models the early
`return` (which bypasses the `lastSeg = seg` update), `emit` the segments
pushed onto `newSegs`, `diverge` a sampling loop that never terminates
(negative step with `d <= len` always true). -/
inductive CurveOut
  | skip
  | emit (segs : List Seg)
  | diverge
deriving DecidableEq

/-- The body of the curve (type "C") branch of
`reducePathSegCurveComplexity`: measure the isolated path `M anchor C vals`,
compute the rounded step, early-return on a falsy length or step, then push
one `L` per loop sample and a final `L` at `values[4], values[5]`. -/
def curveEmit (g : Geom) (anchor vals : List ℚ) (c : ℤ) : CurveOut :=
  let L : ℤ := ⌈g.totalLength anchor vals⌉
  let step := lengthStepJS L c
  if L = 0 ∨ stepTruthy step = false then .skip
  else
    match step with
    | .fin s =>
        if 0 < s then
          .emit ((loopDists L s).map (fun d =>
              { type := "L"
                values := [(g.pointAt anchor vals (d : ℚ)).1,
                           (g.pointAt anchor vals (d : ℚ)).2] }) ++
            [{ type := "L", values := (vals.drop 4).take 2 }])
        else if s ≤ L then .diverge
        else .emit [{ type := "L", values := (vals.drop 4).take 2 }]
    | .posInf => .emit [{ type := "L", values := (vals.drop 4).take 2 }]
    | .negInf => .diverge
    | .nan => .skip

/-- Result of the whole flattening pass: `typeError` models the JS
`TypeError` thrown by `lastSeg.values` when `lastSeg` is still `undefined`,
`diverge` a non-terminating sampling loop. -/
inductive FlatRes
  | ok (segs : List Seg)
  | typeError
  | diverge
deriving DecidableEq

/-- The `forEach` of `reducePathSegCurveComplexity`, with the mutable
`newSegs` accumulator and `lastSeg` variable made explicit.  A skipped
(zero-length) curve early-returns before `lastSeg = seg`, so it leaves
`lastSeg` unchanged. -/
def flattenAux (g : Geom) (c : ℤ) : List Seg → Option Seg → FlatRes
  | [], _ => .ok []
  | seg :: rest, lastSeg =>
      if seg.type = "C" then
        match lastSeg with
        | none => .typeError
        | some ls =>
            match curveEmit g (sliceLast2 ls.values) seg.values c with
            | .skip => flattenAux g c rest (some ls)
            | .emit l =>
                match flattenAux g c rest (some seg) with
                | .ok out => .ok (l ++ out)
                | e => e
            | .diverge => .diverge
      else
        match flattenAux g c rest (some seg) with
        | .ok out => .ok (seg :: out)
        | e => e

/-- The function `reducePathSegCurveComplexity(pathSegList, complexity)`
from source/index.js, parametrized by the geometry oracle `g`. -/
def reducePathSegCurveComplexity (g : Geom) (pathSegList : List Seg)
    (complexity : ℤ) : FlatRes :=
  flattenAux g complexity pathSegList none

/-- Geometry oracle of a horizontal straight-line cubic: the engine reports a
constant total length and the point at arc length `d` is `(d, 0)`.  This is
exactly what the host engine returns for a cubic whose anchor and controls
all lie on the x-axis in increasing order. -/
def lineGeom (len : ℚ) : Geom where
  totalLength _ _ := len
  pointAt _ _ d := (d, 0)

/-- Geometry oracle of a tiny flat loop: for the cubic with anchor `(0,0)`,
both controls `(1/3, 0)` and end `(0,0)`, the position is
`(t * (1 - t), 0)`, which runs out to `x = 1/4` and back — so the engine
measures total arc length exactly `1/2` — and a query past the end of the
path (the code's only query here is at arc length 1) clamps to the path's
end, the origin. -/
def loopGeom : Geom where
  totalLength _ _ := mkRat 1 2
  pointAt _ _ _ := (0, 0)

/-- Integer value of a decimal digit run, most significant first. -/
def digitsVal (ds : List Char) : ℤ :=
  ds.foldl (fun acc ch => acc * 10 + ((ch.toNat : ℤ) - 48)) 0

/-- JS `parseInt(x, 10)` as used on `getAttribute` results: an absent
attribute (`null`) parses to `NaN` (here `none`); a string is parsed by
skipping leading whitespace, reading an optional sign and then the longest
run of decimal digits; no digits means `NaN`. -/
def parseIntJS : Option String → Option ℤ
  | none => none
  | some s =>
      let cs := s.data.dropWhile fun ch => ch.isWhitespace
      let signed : ℤ × List Char :=
        match cs with
        | '-' :: t => (-1, t)
        | '+' :: t => (1, t)
        | _ => (1, cs)
      let ds := signed.2.takeWhile fun ch => ch.isDigit
      if ds = [] then none else some (signed.1 * digitsVal ds)

/-- The fallback guard in the source compares
`typeof viewBox.replace(/^0-9/g, "")` against the string literal "number".
Since `replace` returns a string, whose `typeof` is "string" and never
"number", the not-equal test is true for every possible viewBox string. -/
def viewBoxTypeofTestFails (_vb : String) : Bool := true

/-- The function `getSVGDimensions(svgNode)` from source/index.js, with the three
attribute reads (`width`, `height`, `viewBox`) passed in as the `null`-able
strings the DOM would return.  `none` models the `return false` failure
value.  In the fallback branch the source would split the viewBox and
return its third and fourth components, but that code is unreachable: the
`typeof`-guard rejects every viewBox first. -/
def getSVGDimensions (width height viewBox : Option String) :
    Option (ℤ × ℤ) :=
  match parseIntJS width, parseIntJS height with
  | some w, some h => some (w, h)
  | _, _ =>
      match viewBox with
      | none => none
      | some vb =>
          if vb = "" then none
          else if viewBoxTypeofTestFails vb then none
          else none

/-- Geographic bounds, from the `[[north, east], [south, west]]` argument of
`svgToGeoJson`. -/
structure Bounds where
  north : ℚ
  east : ℚ
  south : ℚ
  west : ℚ
deriving DecidableEq

/-- Drawing dimensions used as the scales' domains. -/
structure Dimensions where
  width : ℚ
  height : ℚ
deriving DecidableEq

/-- d3 `scaleLinear().domain([d0, d1]).range([r0, r1])` applied to `x`:
unclamped linear interpolation. -/
def scaleLinear (d0 d1 r0 r1 x : ℚ) : ℚ :=
  r0 + (x - d0) / (d1 - d0) * (r1 - r0)

/-- The scale `mapX`: domain `[0, width]`, range `[sw[1], ne[1]] = [west, east]`. -/
def mapX (b : Bounds) (dims : Dimensions) (x : ℚ) : ℚ :=
  scaleLinear 0 dims.width b.west b.east x

/-- The scale `mapY`: domain `[0, height]`, range `[ne[0], sw[0]] =
[north, south]`, the deliberately inverted vertical range. -/
def mapY (b : Bounds) (dims : Dimensions) (y : ℚ) : ℚ :=
  scaleLinear 0 dims.height b.north b.south y

/-- Apply both scales to a drawing-space point, longitude first. -/
def projectPoint (b : Bounds) (dims : Dimensions) (p : ℚ × ℚ) : ℚ × ℚ :=
  (mapX b dims p.1, mapY b dims p.2)

/-- Coordinate extracted for one path item in the `pathData.map` of
`svgToGeoJson`: a `Z` item yields `[pathData[0].values[0],
pathData[0].values[1]]`, anything else `[pathitem.values[0],
pathitem.values[1]]`.  Normalized `M`/`L` segments always carry two values;
`getD` supplies a placeholder only for malformed segments outside the
pipeline's reach (where JS would yield `undefined`). -/
def coordOf (first : Seg) (s : Seg) : ℚ × ℚ :=
  if s.type = "Z" then (first.values.getD 0 0, first.values.getD 1 0)
  else (s.values.getD 0 0, s.values.getD 1 0)

/-- The `coords` array of `svgToGeoJson`: one extracted coordinate per
flattened path item. -/
def elementCoords (pathData : List Seg) : List (ℚ × ℚ) :=
  match pathData with
  | [] => []
  | first :: _ => pathData.map (coordOf first)

/-- The `mappedCoords` array: every extracted coordinate pushed through the
two scales. -/
def mappedCoords (b : Bounds) (dims : Dimensions) (pathData : List Seg) :
    List (ℚ × ℚ) :=
  (elementCoords pathData).map fun p => (mapX b dims p.1, mapY b dims p.2)

/-- JS `elem.getAttribute(name)`: the first matching attribute's value,
`null` (here `none`) when absent. -/
def getAttribute (attrs : List (String × String)) (name : String) :
    Option String :=
  (attrs.find? fun p => p.fst == name).map Prod.snd

/-- The `properties` bag of a feature: for each requested attribute name,
`if (value) properties[attr] = value` — only truthy (present and non-empty)
values are stored. -/
def buildProperties (attrs : List (String × String))
    (requested : List String) : List (String × String) :=
  requested.filterMap fun a =>
    match getAttribute attrs a with
    | some v => if v = "" then none else some (a, v)
    | none => none

/-- GeoJSON geometry as emitted: a flat coordinate list for `LineString`, a
list of rings for `Polygon`. -/
inductive GeoGeometry
  | lineString (coords : List (ℚ × ℚ))
  | polygon (rings : List (List (ℚ × ℚ)))
deriving DecidableEq

/-- One emitted GeoJSON feature. -/
structure Feature where
  properties : List (String × String)
  geometry : GeoGeometry
deriving DecidableEq

/-- The per-element body of `svgToGeoJson`: project the flattened path's
coordinates, build the attribute bag, and wrap the coordinates as a
`LineString` for a `polyline` element, else as a single-ring `Polygon`. -/
def buildFeature (b : Bounds) (dims : Dimensions) (tagName : String)
    (attrs : List (String × String)) (requested : List String)
    (pathData : List Seg) : Feature :=
  { properties := buildProperties attrs requested
    geometry :=
      if tagName = "polyline" then .lineString (mappedCoords b dims pathData)
      else .polygon [mappedCoords b dims pathData] }

/-- Spec-side definition, written from the claim's words and not from the
code: `n` sample points at equal fractions `(k+1)/n` of the total curve
length, the last at the full length.  Used only to compare the code's
sampling against the claimed one. -/
def specEqualArcSamples (g : Geom) (anchor vals : List ℚ) (n : ℕ) :
    List (ℚ × ℚ) :=
  (List.range n).map fun k =>
    g.pointAt anchor vals (((k : ℚ) + 1) * g.totalLength anchor vals / (n : ℚ))

/-! Helper lemmas -/

/-- The function `ceilDivJS` agrees with the rational ceiling `⌈L / c⌉` (the transparent
reading of `Math.ceil(tmpPathLength / complexity)`) for a positive divisor. -/
theorem ceilDivJS_eq_ceil (L c : ℤ) (hc : 0 < c) :
    ceilDivJS L c = ⌈(L : ℚ) / (c : ℚ)⌉ := by
  have hfd : (-L).fdiv c = (-L) / c := Int.fdiv_eq_ediv _ hc.le
  have hct : ((c.toNat : ℕ) : ℤ) = c := Int.toNat_of_nonneg hc.le
  have hfl : ⌊((-L : ℤ) : ℚ) / ((c.toNat : ℕ) : ℚ)⌋ = (-L) / ((c.toNat : ℕ) : ℤ) :=
    Rat.floor_intCast_div_natCast (-L) c.toNat
  rw [hct] at hfl
  have hcq : ((c.toNat : ℕ) : ℚ) = (c : ℚ) := by
    exact_mod_cast congrArg (fun z : ℤ => (z : ℚ)) hct
  rw [hcq] at hfl
  have hneg : ⌈(L : ℚ) / (c : ℚ)⌉ = -⌊-((L : ℚ) / (c : ℚ))⌋ := by
    rw [Int.floor_neg, neg_neg]
  rw [hneg, ceilDivJS, hfd]
  congr 1
  rw [← hfl]
  congr 1
  push_cast
  ring

/-- The distances visited by the sampling loop, together with the start of
the curve, are spaced exactly `s` apart. -/
theorem loopDists_chain (L s : ℤ) :
    List.Chain' (fun a b => b - a = s) ((0 : ℤ) :: loopDists L s) := by
  have h : (0 : ℤ) :: loopDists L s =
      (List.range ((L / s).toNat + 1)).map fun k : ℕ => s * (k : ℤ) := by
    rw [List.range_succ_eq_map, loopDists, List.map_cons, List.map_map]
    simp only [Nat.cast_zero, mul_zero, List.cons.injEq, true_and]
    apply List.map_congr_left
    intro k _
    simp [Function.comp_def, Nat.succ_eq_add_one]
  rw [h, List.chain'_map]
  refine (List.chain'_range_succ _ _).mpr fun m _ => ?_
  push_cast
  ring

/-- Every distance visited by the sampling loop lies strictly inside `(0, L]`
when the step is positive. -/
theorem loopDists_pos_le (L s : ℤ) (hs : 0 < s) :
    ∀ d ∈ loopDists L s, 0 < d ∧ d ≤ L := by
  intro d hd
  rw [loopDists, List.mem_map] at hd
  obtain ⟨k, hk, rfl⟩ := hd
  rw [List.mem_range] at hk
  have hk1 : (0 : ℤ) < (k : ℤ) + 1 := by positivity
  refine ⟨mul_pos hs hk1, ?_⟩
  have hq : 0 < L / s := by
    by_contra hnp
    push_neg at hnp
    have : (L / s).toNat = 0 := Int.toNat_of_nonpos hnp
    omega
  have hkle : (k : ℤ) + 1 ≤ L / s := by
    have hcast : (k : ℤ) < ((L / s).toNat : ℤ) := by exact_mod_cast hk
    rw [Int.toNat_of_nonneg hq.le] at hcast
    omega
  calc s * ((k : ℤ) + 1) = ((k : ℤ) + 1) * s := by ring
    _ ≤ L := (Int.le_ediv_iff_mul_le hs).mp hkle

/-- Flattening preserves every non-curve segment, in order, whenever it
returns a list at all. -/
theorem flattenAux_sublist (g : Geom) (c : ℤ) :
    ∀ (segs : List Seg) (last : Option Seg) (out : List Seg),
      flattenAux g c segs last = .ok out →
      (segs.filter fun s => s.type != "C").Sublist out := by
  intro segs
  induction segs with
  | nil =>
      intro last out h
      simp only [flattenAux, FlatRes.ok.injEq] at h
      subst h
      simp
  | cons seg rest ih =>
      intro last out h
      by_cases hC : seg.type = "C"
      · rw [List.filter_cons]
        have hb : (seg.type != "C") = false := by simp [hC]
        rw [hb]
        simp only [Bool.false_eq_true, if_false]
        cases last with
        | none => simp [flattenAux, hC] at h
        | some ls =>
            simp only [flattenAux, hC, if_true] at h
            cases hcur : curveEmit g (sliceLast2 ls.values) seg.values c with
            | skip => rw [hcur] at h; exact ih _ _ h
            | emit l =>
                rw [hcur] at h
                cases hrec : flattenAux g c rest (some seg) with
                | ok out2 =>
                    rw [hrec] at h
                    simp only at h
                    cases h
                    exact (ih _ _ hrec).trans (List.sublist_append_right l out2)
                | typeError => rw [hrec] at h; simp at h
                | diverge => rw [hrec] at h; simp at h
            | diverge => rw [hcur] at h; simp at h
      · rw [List.filter_cons]
        have hb : (seg.type != "C") = true := by simp [hC]
        rw [hb, if_pos rfl]
        simp only [flattenAux, hC, if_false] at h
        cases hrec : flattenAux g c rest (some seg) with
        | ok out2 =>
            rw [hrec] at h
            simp only at h
            cases h
            exact (ih _ _ hrec).cons₂ seg
        | typeError => rw [hrec] at h; simp at h
        | diverge => rw [hrec] at h; simp at h

/-! Theorems about the claims -/

/-- Claim C1, evaluated at a failing input: flattening one straight cubic
whose measured total length is 10 with complexity 5 emits six new `L`
segments, not five.  The rounded step `⌈10/5⌉ = 2` divides the rounded
length, so the loop itself already lands on the end of the curve
(`d = 10`), and the end point is then pushed a second time.  The last
emitted segment does equal the declared end point exactly, but the count is
not the promised `N`. -/
theorem reduce_complexity_five_emits_six :
    reducePathSegCurveComplexity (lineGeom 10)
      [⟨"M", [0, 0]⟩, ⟨"C", [2, 0, 8, 0, 10, 0]⟩] 5 =
    .ok [⟨"M", [0, 0]⟩, ⟨"L", [2, 0]⟩, ⟨"L", [4, 0]⟩, ⟨"L", [6, 0]⟩,
         ⟨"L", [8, 0]⟩, ⟨"L", [10, 0]⟩, ⟨"L", [10, 0]⟩] := by
  decide

/-- Claim C2, evaluated at a failing input: with the width and height
attributes absent and a perfectly well-formed `viewBox="0 0 100 50"`,
`getSVGDimensions` still returns its failure value instead of falling back
to the viewBox: the guard comparing `typeof viewBox.replace(/^0-9/g, "")`
against "number" is true for every string (a string never has typeof
"number"), so the fallback branch always bails out. -/
theorem getSVGDimensions_viewBox_fallback_dead :
    getSVGDimensions none none (some "0 0 100 50") = none := by
  decide

/-- Claim C3: for every bounds and every dimensions of nonzero extent, the
projection maps the drawing-space origin to `(west, north)` and the far
corner `(width, height)` to `(east, south)`: each axis is an independent
unclamped linear map and the vertical range is inverted (north at `y = 0`,
south at `y = height`). -/
theorem projectPoint_corners (b : Bounds) (dims : Dimensions)
    (hw : dims.width ≠ 0) (hh : dims.height ≠ 0) :
    projectPoint b dims (0, 0) = (b.west, b.north) ∧
    projectPoint b dims (dims.width, dims.height) = (b.east, b.south) := by
  unfold projectPoint mapX mapY scaleLinear
  constructor
  · simp
  · simp only [Prod.mk.injEq, sub_zero]
    constructor
    · rw [div_self hw]
      ring
    · rw [div_self hh]
      ring

/-- Witness for C3 at concrete bounds and dimensions. -/
theorem projectPoint_corners_witness :
    projectPoint ⟨7, 5, 3, 2⟩ ⟨100, 50⟩ (0, 0) = (2, 7) ∧
    projectPoint ⟨7, 5, 3, 2⟩ ⟨100, 50⟩ (100, 50) = (5, 3) :=
  projectPoint_corners ⟨7, 5, 3, 2⟩ ⟨100, 50⟩ (by decide) (by decide)

/-- Claim C4, counterexample: the flattener contains no complexity
validation at all.  With `complexity = 0` on a curve of positive length the
call does not fail with anything — the computed step is `Infinity`, the
loop body never runs, and only the snapped end-point segment is emitted. -/
theorem reduce_complexity_zero_succeeds :
    reducePathSegCurveComplexity (lineGeom 9)
      [⟨"M", [0, 0]⟩, ⟨"C", [3, 0, 6, 0, 9, 0]⟩] 0 =
    .ok [⟨"M", [0, 0]⟩, ⟨"L", [9, 0]⟩] := by
  decide

/-- Claim C4, amended: calling the flattener with `complexity = 0` does not
fail with an invalid-argument error; each curve whose rounded length is
positive contributes exactly one `L` segment, its declared end point. -/
theorem curveEmit_complexity_zero (g : Geom) (anchor vals : List ℚ)
    (hL : 0 < ⌈g.totalLength anchor vals⌉) :
    curveEmit g anchor vals 0 =
      .emit [{ type := "L", values := (vals.drop 4).take 2 }] := by
  have h0 : lengthStepJS ⌈g.totalLength anchor vals⌉ 0 = .posInf := by
    rw [lengthStepJS, if_pos rfl, if_neg (by omega), if_pos hL]
  simp [curveEmit, h0, stepTruthy, hL.ne']

/-- Witness for the amended C4 at a concrete curve. -/
theorem curveEmit_complexity_zero_witness :
    curveEmit (lineGeom 9) [0, 0] [3, 0, 6, 0, 9, 0] 0 =
      .emit [⟨"L", [9, 0]⟩] :=
  curveEmit_complexity_zero (lineGeom 9) [0, 0] [3, 0, 6, 0, 9, 0] (by decide)

/-- Claim C5: a `C` segment at the head of the input, with no preceding
segment to provide a start anchor, makes the whole flattening fail (the JS
code dereferences `lastSeg.values` with `lastSeg` still `undefined`,
throwing immediately), rather than guessing an anchor. -/
theorem reduce_curve_first_typeError (g : Geom) (c : ℤ) (seg : Seg)
    (rest : List Seg) (hC : seg.type = "C") :
    reducePathSegCurveComplexity g (seg :: rest) c = .typeError := by
  simp [reducePathSegCurveComplexity, flattenAux, hC]

/-- Witness for C5 at a concrete curve-first list. -/
theorem reduce_curve_first_typeError_witness :
    reducePathSegCurveComplexity (lineGeom 1) [⟨"C", [3, 0, 6, 0, 9, 0]⟩] 5 =
      .typeError :=
  reduce_curve_first_typeError (lineGeom 1) 5 ⟨"C", [3, 0, 6, 0, 9, 0]⟩ [] rfl

/-- Claim C6, counterexample: a curve whose start anchor equals its end
point and whose total arc length (1/2) is below any small epsilon is NOT a
silent no-op.  `Math.ceil` rounds the length up to 1, the skip guard does
not fire, and the flattener emits two `L` segments for the curve (one loop
sample clamped to the path end, then the snapped end point). -/
theorem reduce_tiny_loop_emits :
    reducePathSegCurveComplexity loopGeom
      [⟨"M", [0, 0]⟩, ⟨"C", [mkRat 1 3, 0, mkRat 1 3, 0, 0, 0]⟩] 5 =
    .ok [⟨"M", [0, 0]⟩, ⟨"L", [0, 0]⟩, ⟨"L", [0, 0]⟩] := by
  decide

/-- Claim C6, amended: a curve is a silent no-op — zero new segments, no
error, the rest of the list processed unchanged (even the recorded last
segment is untouched, because the early return skips the `lastSeg = seg`
update) — when its engine-measured total arc length is exactly zero, as for
the fully degenerate curve whose anchor, controls and end all coincide.  A
merely tiny positive length does not suffice (`Math.ceil` rounds any length
in `(0, 1]` up to 1 and the curve is sampled normally), nor does an
anchor-equals-end loop of positive length. -/
theorem degenerate_curve_noop (g : Geom) (c : ℤ) (seg ls : Seg)
    (rest : List Seg) (hC : seg.type = "C")
    (hlen : g.totalLength (sliceLast2 ls.values) seg.values = 0) :
    flattenAux g c (seg :: rest) (some ls) = flattenAux g c rest (some ls) := by
  have hskip : curveEmit g (sliceLast2 ls.values) seg.values c = .skip := by
    simp [curveEmit, hlen]
  simp [flattenAux, hC, hskip]

/-- Witness for C6 at a concrete zero-length curve. -/
theorem degenerate_curve_noop_witness :
    flattenAux (lineGeom 0) 5 [⟨"C", [1, 2, 3, 4, 5, 6]⟩]
        (some ⟨"M", [0, 0]⟩) =
      flattenAux (lineGeom 0) 5 [] (some ⟨"M", [0, 0]⟩) :=
  degenerate_curve_noop (lineGeom 0) 5 ⟨"C", [1, 2, 3, 4, 5, 6]⟩
    ⟨"M", [0, 0]⟩ [] rfl rfl

/-- Claim C7, counterexample: a straight cubic of measured length 10
flattened with complexity 4 emits its points at arc lengths 3, 6, 9, 10 —
the integer-rounded step `⌈10/4⌉ = 3` — which is not the claimed
equal-fraction distribution 2.5, 5, 7.5, 10 along the curve. -/
theorem reduce_samples_not_equal_fractions :
    reducePathSegCurveComplexity (lineGeom 10)
      [⟨"M", [0, 0]⟩, ⟨"C", [3, 0, 7, 0, 10, 0]⟩] 4 =
      .ok [⟨"M", [0, 0]⟩, ⟨"L", [3, 0]⟩, ⟨"L", [6, 0]⟩, ⟨"L", [9, 0]⟩,
           ⟨"L", [10, 0]⟩] ∧
    ¬ ([((3 : ℚ), (0 : ℚ)), (6, 0), (9, 0), (10, 0)] =
        specEqualArcSamples (lineGeom 10) [0, 0] [3, 0, 7, 0, 10, 0] 4) := by
  constructor
  · decide
  · norm_num [specEqualArcSamples, lineGeom, List.range_succ]

/-- Claim C7, amended: for complexity `c ≥ 1` and positive rounded length,
the interior samples are taken at consecutive multiples of the rounded
integer step `⌈⌈length⌉ / c⌉` — equal arc-length increments of that step,
each within the curve — and the final emitted segment is snapped to the
curve's declared end point; the increments equal the rounded step, not the
exact fraction `length / c`, so the gap before the snapped end point can
differ. -/
theorem curveEmit_step_sampling (g : Geom) (anchor vals : List ℚ) (c : ℤ)
    (hc : 1 ≤ c) (hL : 0 < ⌈g.totalLength anchor vals⌉) :
    curveEmit g anchor vals c =
      .emit (((loopDists ⌈g.totalLength anchor vals⌉
            (ceilDivJS ⌈g.totalLength anchor vals⌉ c)).map fun d =>
          { type := "L"
            values := [(g.pointAt anchor vals (d : ℚ)).1,
                       (g.pointAt anchor vals (d : ℚ)).2] }) ++
        [{ type := "L", values := (vals.drop 4).take 2 }]) ∧
    List.Chain' (fun a b => b - a = ceilDivJS ⌈g.totalLength anchor vals⌉ c)
      ((0 : ℤ) :: loopDists ⌈g.totalLength anchor vals⌉
        (ceilDivJS ⌈g.totalLength anchor vals⌉ c)) ∧
    ∀ d ∈ loopDists ⌈g.totalLength anchor vals⌉
        (ceilDivJS ⌈g.totalLength anchor vals⌉ c),
      0 < d ∧ d ≤ ⌈g.totalLength anchor vals⌉ := by
  have hc0 : c ≠ 0 := by omega
  have hs : 0 < ceilDivJS ⌈g.totalLength anchor vals⌉ c := by
    rw [ceilDivJS_eq_ceil _ _ (by omega), Int.ceil_pos]
    have hLq : (0 : ℚ) < (⌈g.totalLength anchor vals⌉ : ℚ) := by
      exact_mod_cast hL
    have hcq : (0 : ℚ) < (c : ℚ) := by
      exact_mod_cast (by omega : (0 : ℤ) < c)
    exact div_pos hLq hcq
  refine ⟨?_, loopDists_chain _ _, loopDists_pos_le _ _ hs⟩
  have hstep : lengthStepJS ⌈g.totalLength anchor vals⌉ c =
      .fin (ceilDivJS ⌈g.totalLength anchor vals⌉ c) := by
    rw [lengthStepJS, if_neg hc0]
  simp [curveEmit, hstep, stepTruthy, hL.ne', hs, hs.ne']

/-- Witness for the amended C7 at a concrete curve. -/
theorem curveEmit_step_sampling_witness :
    curveEmit (lineGeom 10) [0, 0] [3, 0, 7, 0, 10, 0] 4 =
      .emit [⟨"L", [3, 0]⟩, ⟨"L", [6, 0]⟩, ⟨"L", [9, 0]⟩, ⟨"L", [10, 0]⟩] ∧
    List.Chain' (fun a b => b - a = (3 : ℤ)) [0, 3, 6, 9] ∧
    ∀ d ∈ loopDists 10 3, 0 < d ∧ d ≤ 10 :=
  curveEmit_step_sampling (lineGeom 10) [0, 0] [3, 0, 7, 0, 10, 0] 4
    (by decide) (by decide)

/-- Claim C8: for any flattened path whose last item is a `Z` (ClosePath),
the assembled non-polyline feature is a single-ring polygon whose first and
last projected coordinates are identical — the `Z` item is resolved to the
path's first recorded coordinate before projection. -/
theorem buildFeature_polygon_ring_closed (b : Bounds) (dims : Dimensions)
    (tagName : String) (attrs : List (String × String))
    (requested : List String) (l : List Seg) (z : Seg)
    (hz : l.getLast? = some z) (hZ : z.type = "Z")
    (hTag : tagName ≠ "polyline") :
    ∃ ring p,
      (buildFeature b dims tagName attrs requested l).geometry =
        GeoGeometry.polygon [ring] ∧
      ring.head? = some p ∧ ring.getLast? = some p := by
  refine ⟨mappedCoords b dims l, ?_⟩
  cases l with
  | nil => simp at hz
  | cons first rest =>
      refine ⟨(mapX b dims (coordOf first first).1,
               mapY b dims (coordOf first first).2), ?_, ?_, ?_⟩
      · simp [buildFeature, hTag]
      · simp [mappedCoords, elementCoords]
      · have h1 : (mappedCoords b dims (first :: rest)).getLast? =
            ((first :: rest).getLast?).map fun s =>
              (mapX b dims (coordOf first s).1,
               mapY b dims (coordOf first s).2) := by
          rw [mappedCoords, elementCoords, List.getLast?_map, List.getLast?_map,
            Option.map_map]
          rfl
        rw [h1, hz]
        have h2 : coordOf first z = coordOf first first := by
          unfold coordOf
          rw [if_pos hZ]
          by_cases hf : first.type = "Z"
          · rw [if_pos hf]
          · rw [if_neg hf]
        simp [h2]

/-- Witness for C8 at a concrete closed path. -/
theorem buildFeature_polygon_ring_closed_witness :
    ∃ ring p,
      (buildFeature ⟨7, 5, 3, 2⟩ ⟨100, 50⟩ "path" [] []
          [⟨"M", [0, 0]⟩, ⟨"L", [100, 50]⟩, ⟨"Z", []⟩]).geometry =
        GeoGeometry.polygon [ring] ∧
      ring.head? = some p ∧ ring.getLast? = some p :=
  buildFeature_polygon_ring_closed ⟨7, 5, 3, 2⟩ ⟨100, 50⟩ "path" [] []
    [⟨"M", [0, 0]⟩, ⟨"L", [100, 50]⟩, ⟨"Z", []⟩] ⟨"Z", []⟩ rfl rfl
    (by decide)

/-- Claim C9: the emitted properties bag contains exactly the requested
attribute names that resolve to a non-empty value on the element; a
requested attribute that is absent (`null`) or empty is omitted entirely. -/
theorem buildProperties_mem_iff (attrs : List (String × String))
    (requested : List String) (a v : String) :
    (a, v) ∈ buildProperties attrs requested ↔
      a ∈ requested ∧ getAttribute attrs a = some v ∧ v ≠ "" := by
  rw [buildProperties, List.mem_filterMap]
  constructor
  · rintro ⟨x, hx, hfx⟩
    cases hga : getAttribute attrs x with
    | none =>
        rw [hga] at hfx
        exact absurd (show (none : Option (String × String)) = some (a, v)
          from hfx) (by simp)
    | some w =>
        rw [hga] at hfx
        have hfx2 : (if w = "" then none else some (x, w)) = some (a, v) := hfx
        by_cases hw : w = ""
        · rw [if_pos hw] at hfx2
          exact absurd hfx2 (by simp)
        · rw [if_neg hw] at hfx2
          obtain ⟨rfl, rfl⟩ : x = a ∧ w = v := by simpa using hfx2
          exact ⟨hx, hga, hw⟩
  · rintro ⟨ha, hga, hv⟩
    refine ⟨a, ha, ?_⟩
    rw [hga]
    show (if v = "" then none else some (a, v)) = some (a, v)
    rw [if_neg hv]

/-- Claim C10: the flattener is a pure function of its input — it never
writes to the input list or its segments (there is no assignment to them
anywhere in the function, and this embedding is total and effect-free) —
and whenever it returns a list, every non-curve input segment appears in it
with unchanged type and values, in its original relative order. -/
theorem reduce_preserves_nonCurve (g : Geom) (c : ℤ) (segs out : List Seg)
    (h : reducePathSegCurveComplexity g segs c = .ok out) :
    (segs.filter fun s => s.type != "C").Sublist out :=
  flattenAux_sublist g c segs none out h

/-- Witness for C10 at a concrete mixed list. -/
theorem reduce_preserves_nonCurve_witness :
    (([⟨"M", [0, 0]⟩, ⟨"C", [3, 0, 6, 0, 9, 0]⟩, ⟨"Z", []⟩] :
        List Seg).filter fun s => s.type != "C").Sublist
      [⟨"M", [0, 0]⟩, ⟨"L", [3, 0]⟩, ⟨"L", [6, 0]⟩, ⟨"L", [9, 0]⟩,
       ⟨"L", [9, 0]⟩, ⟨"Z", []⟩] :=
  reduce_preserves_nonCurve (lineGeom 9)
    3 [⟨"M", [0, 0]⟩, ⟨"C", [3, 0, 6, 0, 9, 0]⟩, ⟨"Z", []⟩]
    [⟨"M", [0, 0]⟩, ⟨"L", [3, 0]⟩, ⟨"L", [6, 0]⟩, ⟨"L", [9, 0]⟩,
     ⟨"L", [9, 0]⟩, ⟨"Z", []⟩] (by decide)

end SvgToGeoJson
